import Mathlib

/-!
Verification of the appointment scheduling engine and chat orchestration of the
RAG medical-clinic chatbot repository.

The Python source (backend/api/calendly_integration.py, backend/agent/
scheduling_agent.py, backend/models/schemas.py) is embedded shallowly:

* Calendar dates are records of (year, month, day) naturals; Python's
  `datetime.date` comparison is lexicographic on these fields, and
  `strptime("%Y-%m-%d")` succeeds exactly on well-formed calendar dates,
  modelled by `validDate` over the parsed fields.
* Times of day ("HH:MM" strings in the source) are modelled as minutes since
  midnight; `_time_to_minutes` / `_minutes_to_time` convert between the pair
  (hours, minutes) form and the minute count, and the round-trip lemma
  `timeToMinutes_minutesToTime` shows the minute model is faithful (the source
  converts every stored time string back to minutes before comparing).
* `random.choices` draws are passed in explicitly as lists of `Fin` indices.
* The JSON ledger is a `List Appointment`; persistence (`_save_bookings`)
  rewrites the whole file from the in-memory list, so the list itself is the
  persisted state.
-/

namespace RagChatbot

/-- A calendar date, the parsed fields of a `YYYY-MM-DD` string. -/
structure Date where
  year : Nat
  month : Nat
  day : Nat
deriving DecidableEq, Repr

/-- Gregorian leap-year test, as Python's `calendar`/`datetime` implement it. -/
def isLeap (y : Nat) : Bool :=
  (y % 4 == 0 && y % 100 != 0) || (y % 400 == 0)

/-- Number of days in a month of a given year. -/
def daysInMonth (y m : Nat) : Nat :=
  if m == 2 then (if isLeap y then 29 else 28)
  else if m == 4 || m == 6 || m == 9 || m == 11 then 30
  else 31

/-- A `(y, m, d)` triple is a well-formed calendar date exactly when
`datetime.strptime(s, "%Y-%m-%d")` accepts it: year within `datetime`'s
MINYEAR..MAXYEAR range, month 1..12, day within the month. -/
def validDate (d : Date) : Bool :=
  1 ≤ d.year && d.year ≤ 9999 &&
  1 ≤ d.month && d.month ≤ 12 &&
  1 ≤ d.day && d.day ≤ daysInMonth d.year d.month

/-- Strict comparison of dates; `datetime.date.__lt__` is lexicographic on
(year, month, day). -/
def dateLt (a b : Date) : Bool :=
  a.year < b.year ||
  (a.year == b.year && (a.month < b.month ||
    (a.month == b.month && a.day < b.day)))

/-- Days in the months strictly before month `m` of year `y`. -/
def daysBeforeMonth (y m : Nat) : Nat :=
  match m with
  | 0 => 0
  | n + 1 => if n == 0 then 0 else daysBeforeMonth y n + daysInMonth y n

/-- Proleptic-Gregorian ordinal of a date (0001-01-01 has ordinal 1), as in
`datetime.date.toordinal`. -/
def toOrdinal (d : Date) : Nat :=
  let n := d.year - 1
  365 * n + n / 4 + n / 400 - n / 100 + daysBeforeMonth d.year d.month + d.day

/-- Weekday index of a date with Monday = 0, as `datetime.date.weekday()`
(0001-01-01 was a Monday). The source keys the schedule by the lowercase
weekday *name* from `strftime("%A")`; the index is an equivalent encoding. -/
def dayOfWeek (d : Date) : Fin 7 :=
  ⟨(toOrdinal d + 6) % 7, Nat.mod_lt _ (by decide)⟩

/-- `_time_to_minutes`: "HH:MM" (as the pair of its fields) to minutes since
midnight. -/
def timeToMinutes (h m : Nat) : Nat := h * 60 + m

/-- `_minutes_to_time`: minutes since midnight back to the (hours, minutes)
pair of the formatted string. -/
def minutesToTime (n : Nat) : Nat × Nat := (n / 60, n % 60)

/-- The four appointment-type tags of `AppointmentType` in schemas.py. -/
inductive AppointmentType where
  | consultation
  | followup
  | physical
  | specialist
deriving DecidableEq, Repr

/-- One working session of a day (`{"start": "HH:MM", "end": "HH:MM"}`),
in minutes since midnight. -/
structure Session where
  start : Nat
  stop : Nat
deriving DecidableEq, Repr

/-- The doctor-schedule artifact (`doctor_schedule.json`), read-only at
runtime. `workingHours` maps the weekday index to its session list. -/
structure Schedule where
  workingHours : Fin 7 → List Session
  holidays : List Date
  blockedDates : List Date
  durationMinutes : AppointmentType → Nat
  bufferMinutes : Nat

/-- A stored appointment record of `bookings.json`. Times are minutes since
midnight; `createdAt`/`cancelledAt` are abstract timestamps. -/
structure Appointment where
  bookingId : String
  confirmationCode : String
  status : String
  appointmentType : AppointmentType
  date : Date
  startTime : Nat
  stopTime : Nat
  patientName : String
  patientEmail : String
  patientPhone : String
  reason : String
  createdAt : Nat
  cancelledAt : Option Nat := none
deriving DecidableEq, Repr

/-- The booking ledger: the `appointments` list of `bookings.json`. -/
abbrev Ledger := List Appointment

/-- A validated booking request (`BookingRequest` in schemas.py), with the
date and start-time fields already parsed. -/
structure BookingRequest where
  appointmentType : AppointmentType
  date : Date
  startTime : Nat
  patientName : String
  patientEmail : String
  patientPhone : String
  reason : String
deriving DecidableEq, Repr

/-- `_is_working_day`: not a holiday, not a blocked date, and the weekday has
at least one session. -/
def isWorkingDay (sched : Schedule) (d : Date) : Bool :=
  !(decide (d ∈ sched.holidays)) &&
  !(decide (d ∈ sched.blockedDates)) &&
  !(sched.workingHours (dayOfWeek d)).isEmpty

/-- `_get_working_sessions`: the weekday's sessions, or `[]` on a non-working
day. -/
def getWorkingSessions (sched : Schedule) (d : Date) : List Session :=
  if isWorkingDay sched d then sched.workingHours (dayOfWeek d) else []

/-- `_get_booked_slots`: the `(start, end)` intervals of the confirmed
appointments on a date, in ledger order. -/
def getBookedSlots (ledger : Ledger) (d : Date) : List (Nat × Nat) :=
  (ledger.filter (fun a => a.date == d && a.status == "confirmed")).map
    (fun a => (a.startTime, a.stopTime))

/-- `_is_slot_available`: the candidate interval `[s, e)` passes iff for every
confirmed interval on the date, `e ≤ slot_start or s ≥ slot_end`. -/
def isSlotAvailable (ledger : Ledger) (d : Date) (s e : Nat) : Bool :=
  (getBookedSlots ledger d).all (fun be => e ≤ be.1 || be.2 ≤ s)

/-- The body of the slot-generation `while` loop of `get_availability`,
fuelled so the recursion is structural: one fuel unit per iteration. As long
as `0 < step`, fuel `sessionEnd + 1 - current` is enough to run the loop to
completion (`slotStartsGo_fuel`). -/
def slotStartsGo (dur step sessionEnd : Nat) : Nat → Nat → List Nat
  | _, 0 => []
  | current, fuel + 1 =>
    if current + dur ≤ sessionEnd then
      if 0 < step then
        current :: slotStartsGo dur step sessionEnd (current + step) fuel
      else [current]
    else []

/-- The slot-generation `while` loop of `get_availability`: starting offsets
from `current`, stepping by `step = duration + buffer`, while
`current + duration ≤ sessionEnd`. Faithful to the Python loop whenever
`0 < step`; the Python loop does not terminate when `step = 0` (zero duration
and buffer), a case no schedule-driven call reaches. -/
def slotStarts (dur step sessionEnd current : Nat) : List Nat :=
  slotStartsGo dur step sessionEnd current (sessionEnd + 1 - current)

/-- One generated candidate slot (`TimeSlot` in schemas.py). -/
structure TimeSlot where
  startTime : Nat
  stopTime : Nat
  available : Bool
deriving DecidableEq, Repr

/-- `AvailabilityResponse` of schemas.py, with `day_of_week` as the weekday
index. -/
structure AvailabilityResponse where
  date : Date
  weekday : Fin 7
  availableSlots : List TimeSlot
  totalSlots : Nat
  availableCount : Nat
deriving DecidableEq, Repr

/-- The error `get_availability` raises (`ValueError("Invalid date format…")`
re-raised from a failed `strptime`). -/
inductive AvailError where
  | invalidDate
deriving DecidableEq, Repr

/-- The slots generated for the sessions of one date. -/
def generateSlots (sched : Schedule) (ledger : Ledger) (d : Date)
    (t : AppointmentType) : List TimeSlot :=
  (getWorkingSessions sched d).flatMap (fun sess =>
    (slotStarts (sched.durationMinutes t)
        (sched.durationMinutes t + sched.bufferMinutes) sess.stop sess.start).map
      (fun c => ⟨c, c + sched.durationMinutes t,
        isSlotAvailable ledger d c (c + sched.durationMinutes t)⟩))

/-- `get_availability(date_str, appointment_type)`. `today` is
`datetime.date.today()`. Invalid dates raise; past dates and non-working days
return the empty response; otherwise slots are generated per session. -/
def getAvailability (sched : Schedule) (today : Date) (ledger : Ledger)
    (d : Date) (t : AppointmentType) : Except AvailError AvailabilityResponse :=
  if validDate d then
    if dateLt d today then
      .ok ⟨d, dayOfWeek d, [], 0, 0⟩
    else if !(isWorkingDay sched d) then
      .ok ⟨d, dayOfWeek d, [], 0, 0⟩
    else
      let slots := generateSlots sched ledger d t
      .ok ⟨d, dayOfWeek d, slots, slots.length,
        slots.countP (fun s => s.available)⟩
  else .error .invalidDate

/-- Decimal digit character, `'0'`..`'9'`. -/
def digitChar (n : Nat) : Char := Char.ofNat (48 + n % 10)

/-- The date part of a booking id: `strftime("%Y%m%d")` of today, eight
zero-padded decimal digits (years 1..9999 as `datetime` guarantees). -/
def dateStamp (d : Date) : String :=
  String.mk [digitChar (d.year / 1000), digitChar (d.year / 100),
    digitChar (d.year / 10), digitChar d.year,
    digitChar (d.month / 10), digitChar d.month,
    digitChar (d.day / 10), digitChar d.day]

/-- `_generate_booking_id`: `APPT-<YYYYMMDD>-<4 random digits>`; the digit
draws of `random.choices(string.digits, k=4)` are passed in. -/
def generateBookingId (today : Date) (draws : List (Fin 10)) : String :=
  "APPT-" ++ dateStamp today ++ "-" ++ String.mk (draws.map (fun i => digitChar i.val))

/-- The alphabet of `string.ascii_uppercase + string.digits`. -/
def codeAlphabet : List Char := "ABCDEFGHIJKLMNOPQRSTUVWXYZ0123456789".data

/-- `_generate_confirmation_code`: six draws from the uppercase+digits
alphabet, draws passed in. -/
def generateConfirmationCode (draws : List (Fin 36)) : String :=
  String.mk (draws.map (fun i => codeAlphabet.getD i.val 'A'))

/-- The randomness consumed by one booking: the digit draws for the id and the
alphabet draws for the confirmation code. -/
structure Rng where
  idDigits : List (Fin 10)
  codeDraws : List (Fin 36)
deriving DecidableEq, Repr

/-- The error taxonomy of `book_appointment`'s `ValueError`s, in source
order: past date, closed day, occupied slot, outside working hours. -/
inductive BookError where
  | pastDate
  | closedDay
  | slotUnavailable
  | outsideHours
deriving DecidableEq, Repr

/-- `book_appointment(booking_request)`. `today` is `date.today()` and also
the date stamped into the booking id (`datetime.now()` at the same instant);
`now` is the `created_at` timestamp. Checks run in source order: past date,
working day, slot availability, session containment; on success the confirmed
record is appended to the ledger and persisted. -/
def bookAppointment (sched : Schedule) (today : Date) (ledger : Ledger)
    (req : BookingRequest) (rng : Rng) (now : Nat) :
    Except BookError (Appointment × Ledger) :=
  if dateLt req.date today then .error .pastDate
  else if !(isWorkingDay sched req.date) then .error .closedDay
  else
    let dur := sched.durationMinutes req.appointmentType
    let s := req.startTime
    let e := s + dur
    if !(isSlotAvailable ledger req.date s e) then .error .slotUnavailable
    else if !((getWorkingSessions sched req.date).any (fun sess =>
        sess.start ≤ s && e ≤ sess.stop)) then .error .outsideHours
    else
      let appt : Appointment :=
        { bookingId := generateBookingId today rng.idDigits
          confirmationCode := generateConfirmationCode rng.codeDraws
          status := "confirmed"
          appointmentType := req.appointmentType
          date := req.date
          startTime := s
          stopTime := e
          patientName := req.patientName
          patientEmail := req.patientEmail
          patientPhone := req.patientPhone
          reason := req.reason
          createdAt := now }
      .ok (appt, ledger ++ [appt])

/-- `get_booking_by_id`: first record with the given id, else `None`. -/
def getBookingById (ledger : Ledger) (id : String) : Option Appointment :=
  match ledger with
  | [] => none
  | a :: rest => if a.bookingId == id then some a else getBookingById rest id

/-- `cancel_booking`: flip the first record with the given id to cancelled,
stamp `cancelled_at`, persist and return true; false when no record matches. -/
def cancelBooking (now : Nat) (ledger : Ledger) (id : String) :
    Bool × Ledger :=
  match ledger with
  | [] => (false, [])
  | a :: rest =>
    if a.bookingId == id then
      (true, { a with status := "cancelled", cancelledAt := some now } :: rest)
    else
      let p := cancelBooking now rest id
      (p.1, a :: p.2)

/-! ### Spec-side predicates

These follow the spec's wording and are compared against the embedded code. -/

/-- Two half-open intervals `[s1, e1)` and `[s2, e2)` intersect: some point
lies in both. -/
def intervalsIntersect (s1 e1 s2 e2 : Nat) : Prop :=
  ∃ x, (s1 ≤ x ∧ x < e1) ∧ (s2 ≤ x ∧ x < e2)

/-- The ledger invariant of the spec: no two confirmed appointments on the
same date have intersecting `[startTime, endTime)` intervals. -/
def noConfirmedOverlap (L : Ledger) : Prop :=
  L.Pairwise (fun a b => a.status = "confirmed" → b.status = "confirmed" →
    a.date = b.date →
    ¬ intervalsIntersect a.startTime a.stopTime b.startTime b.stopTime)

/-- The interval `[s, e)` overlaps some confirmed appointment on date `d`,
under the spec's half-open overlap test `A.start < B.end AND B.start < A.end`. -/
def overlapsConfirmed (ledger : Ledger) (d : Date) (s e : Nat) : Prop :=
  ∃ a ∈ ledger, a.status = "confirmed" ∧ a.date = d ∧
    a.startTime < e ∧ s < a.stopTime

/-- The interval `[s, e)` lies entirely within one working session of date
`d`: `sessionStart ≤ s` and `e ≤ sessionEnd`. -/
def withinSomeSession (sched : Schedule) (d : Date) (s e : Nat) : Prop :=
  ∃ sess ∈ getWorkingSessions sched d, sess.start ≤ s ∧ e ≤ sess.stop

/-- Ledger states reachable from `L` by any sequence of successful
`book_appointment` and `cancel_booking` operations (each step with its own
"today", request, randomness and timestamps; the schedule file is read-only). -/
inductive Reachable (sched : Schedule) : Ledger → Ledger → Prop where
  | refl (L : Ledger) : Reachable sched L L
  | book {L L' L'' : Ledger} {a : Appointment} (today : Date)
      (req : BookingRequest) (rng : Rng) (now : Nat) :
      Reachable sched L L' →
      bookAppointment sched today L' req rng now = .ok (a, L'') →
      Reachable sched L L''
  | cancel {L L' : Ledger} (now : Nat) (id : String) :
      Reachable sched L L' →
      Reachable sched L (cancelBooking now L' id).2

/-! ### The chat turn of the scheduling agent

`SchedulingAgent.chat` (backend/agent/scheduling_agent.py) embedded per
session: the two OpenAI calls are passed in as `Except` values (an exception
raised by a call is its `.error` case), and the function returns the response
record together with the new history of the session. Message contents are
`Option String` because the model's `content` may be `None`. -/

/-- One message of a session history. -/
structure Msg where
  role : String
  content : Option String
deriving DecidableEq, Repr

/-- `_add_to_session`: append, then keep only the last 20 messages. -/
def addToSession (h : List Msg) (m : Msg) : List Msg :=
  let h' := h ++ [m]
  if 20 < h'.length then h'.drop (h'.length - 20) else h'

/-- The first model reply: optional text content plus the names of any
requested tool calls (empty list when `tool_calls` is falsy). -/
structure AssistantTurn where
  content : Option String
  toolCalls : List String
deriving DecidableEq, Repr

/-- The dictionary `chat` returns: `response`, optional `error`, and the
`tool_calls` key (absent, `none`, on the error path). -/
structure ChatOutput where
  response : Option String
  error : Option String
  toolCallsMade : Option (List String)
deriving DecidableEq, Repr

/-- The fixed degraded-mode reply of the `except` handler in `chat`. -/
def apologyMessage : String :=
  "I apologize, but I'm having trouble processing your request right now. Please try again or call us at +91-731-555-0100 for immediate assistance."

/-- The clinic phone number surfaced in the apology. -/
def clinicPhone : String := "+91-731-555-0100"

/-- `SchedulingAgent.chat(message, session_id)` for one session. `firstCall`
is the tool-enabled completion, `secondCall` the follow-up completion (only
consulted on the tool-call path, as in the source). Tool execution results
only flow into the second call's prompt and are abstracted into it. -/
def chat (hist : List Msg) (userMsg : String)
    (firstCall : Except String AssistantTurn)
    (secondCall : Except String String) : ChatOutput × List Msg :=
  match firstCall with
  | .error e => (⟨some apologyMessage, some e, none⟩, hist)
  | .ok turn =>
    if turn.toolCalls.isEmpty then
      let h' := addToSession (addToSession hist ⟨"user", some userMsg⟩)
        ⟨"assistant", turn.content⟩
      (⟨turn.content, none, some []⟩, h')
    else
      let h1 := addToSession hist ⟨"assistant", some (turn.content.getD "")⟩
      match secondCall with
      | .error e => (⟨some apologyMessage, some e, none⟩, h1)
      | .ok finalMsg =>
        let h2 := addToSession (addToSession h1 ⟨"user", some userMsg⟩)
          ⟨"assistant", some finalMsg⟩
        (⟨some finalMsg, none, some turn.toolCalls⟩, h2)

/-! ### Patient phone validation

`PatientInfo` in backend/models/schemas.py: the field pattern
`^\+?[\d\s\-()]+$` runs first, then `validate_phone` keeps digits and `'+'`
and requires at least 10 remaining characters. Characters are modelled at the
ASCII level. -/

/-- A character of the pattern's class `[\d\s\-()]`. -/
def isPhoneChar (c : Char) : Bool :=
  c.isDigit || c.isWhitespace || c == '-' || c == '(' || c == ')'

/-- The field pattern `^\+?[\d\s\-()]+$`: an optional leading `'+'`, then one
or more class characters. -/
def phonePatternOk (s : String) : Bool :=
  match s.data with
  | [] => false
  | c :: rest =>
    if c == '+' then !rest.isEmpty && rest.all isPhoneChar
    else (c :: rest).all isPhoneChar

/-- The `validate_phone` cleaning step: keep digits and `'+'`. -/
def cleanPhone (s : String) : List Char :=
  s.data.filter (fun c => c.isDigit || c == '+')

/-- Whether a phone string passes `PatientInfo` validation: the pattern, then
`len(cleaned) >= 10`. -/
def validatePhone (s : String) : Bool :=
  phonePatternOk s && 10 ≤ (cleanPhone s).length

/-- The spec's separator-stripping: remove spaces, dashes and parentheses. -/
def stripSeparators (s : String) : List Char :=
  s.data.filter (fun c => !(c.isWhitespace || c == '-' || c == '(' || c == ')'))

/-! ### Concrete instances used to exercise the theorems -/

/-- A concrete schedule: one Monday session 09:00–13:00, consultation 30
minutes, followup 15, physical 45, specialist 60, buffer 10. -/
def exampleSchedule : Schedule where
  workingHours := fun w => if w = (0 : Fin 7) then [⟨540, 780⟩] else []
  holidays := []
  blockedDates := []
  durationMinutes := fun t =>
    match t with
    | .consultation => 30
    | .followup => 15
    | .physical => 45
    | .specialist => 60
  bufferMinutes := 10

/-- A Monday (2026-10-12). -/
def exampleMonday : Date := ⟨2026, 10, 12⟩

/-- A schedule open every day with one session 09:00–13:00 (same durations
and buffer as `exampleSchedule`). -/
def everydaySchedule : Schedule where
  workingHours := fun _ => [⟨540, 780⟩]
  holidays := []
  blockedDates := []
  durationMinutes := exampleSchedule.durationMinutes
  bufferMinutes := 10

/-- A concrete booking request for 09:40 on the example Monday (the second
generated consultation slot). -/
def exampleRequest : BookingRequest where
  appointmentType := .consultation
  date := exampleMonday
  startTime := 580
  patientName := "Jane Doe"
  patientEmail := "jane@example.com"
  patientPhone := "+91 98765 43210"
  reason := "general checkup"

/-- Fixed randomness: id digits 1,2,3,4 and confirmation draws spelling
out six alphabet positions. -/
def exampleRng : Rng where
  idDigits := [1, 2, 3, 4]
  codeDraws := [7, 4, 11, 11, 14, 35]

/-- A pre-existing cancelled appointment whose booking id collides with the
id `exampleRng` generates on `exampleMonday`. -/
def staleAppointment : Appointment where
  bookingId := "APPT-20261012-1234"
  confirmationCode := "AAAAAA"
  status := "cancelled"
  appointmentType := .consultation
  date := ⟨2026, 10, 5⟩
  startTime := 540
  stopTime := 570
  patientName := "Old Patient"
  patientEmail := "old@example.com"
  patientPhone := "0123456789"
  reason := "old visit"
  createdAt := 0
  cancelledAt := some 1

/-- A confirmed appointment overhanging the end of the Monday session
(legal as stored data): 12:40–13:10 against a session ending 13:00. -/
def overhangAppointment : Appointment where
  bookingId := "APPT-20261001-0001"
  confirmationCode := "BBBBBB"
  status := "confirmed"
  appointmentType := .specialist
  date := exampleMonday
  startTime := 760
  stopTime := 790
  patientName := "Late Patient"
  patientEmail := "late@example.com"
  patientPhone := "9876543210"
  reason := "late visit"
  createdAt := 2
  cancelledAt := none

/-- A request at 12:45 on the example Monday: its 30-minute interval both
overlaps `overhangAppointment` and sticks out of the session. -/
def overhangRequest : BookingRequest where
  appointmentType := .consultation
  date := exampleMonday
  startTime := 765
  patientName := "John Roe"
  patientEmail := "john@example.com"
  patientPhone := "+91 91234 56789"
  reason := "urgent checkup"

/-- The record `book_appointment` produces from `exampleRequest` with
`exampleRng` at `created_at = 5`. -/
def bookedAppointment : Appointment where
  bookingId := "APPT-20261012-1234"
  confirmationCode := "HELLO9"
  status := "confirmed"
  appointmentType := .consultation
  date := exampleMonday
  startTime := 580
  stopTime := 610
  patientName := "Jane Doe"
  patientEmail := "jane@example.com"
  patientPhone := "+91 98765 43210"
  reason := "general checkup"
  createdAt := 5
  cancelledAt := none

/-! ## Theorems -/

/-- Round-trip: re-parsing a formatted time recovers the minute count, so
working directly in minutes is faithful to the source's string-level flow
(stored `end_time` strings are re-parsed with `_time_to_minutes` before every
comparison). -/
theorem timeToMinutes_minutesToTime (n : Nat) :
    timeToMinutes (minutesToTime n).1 (minutesToTime n).2 = n := by
  simp only [timeToMinutes, minutesToTime]
  omega

/-- With positive step and fuel at least `sessionEnd + 1 - current`, the
fuelled loop body produces exactly the arithmetic progression of offsets
`current + i * step` for as long as the offset plus the duration fits in the
session. -/
theorem slotStartsGo_closed (dur step sessionEnd : Nat) (hs : 0 < step) :
    ∀ fuel current, sessionEnd + 1 - current ≤ fuel →
      slotStartsGo dur step sessionEnd current fuel =
        (List.range (if current + dur ≤ sessionEnd then
          (sessionEnd - dur - current) / step + 1 else 0)).map
          (fun i => current + i * step) := by
  intro fuel
  induction fuel with
  | zero =>
    intro current h
    have hc : ¬ (current + dur ≤ sessionEnd) := by omega
    simp [slotStartsGo, hc]
  | succ fuel ih =>
    intro current h
    by_cases hc : current + dur ≤ sessionEnd
    · simp only [slotStartsGo, if_pos hc, if_pos hs]
      rw [ih (current + step) (by omega)]
      by_cases hc2 : current + step + dur ≤ sessionEnd
      · rw [if_pos hc2]
        have hx : step ≤ sessionEnd - dur - current := by omega
        have hdiv : (sessionEnd - dur - current) / step =
            (sessionEnd - dur - (current + step)) / step + 1 := by
          rw [Nat.div_eq (sessionEnd - dur - current) step, if_pos ⟨hs, hx⟩]
          congr 2
          omega
        rw [hdiv]
        conv_rhs => rw [List.range_succ_eq_map, List.map_cons, List.map_map]
        simp only [Nat.zero_mul, Nat.add_zero]
        refine congrArg (List.cons current) ?_
        apply List.map_congr_left
        intro i _
        show current + step + i * step = current + (i + 1) * step
        ring
      · rw [if_neg hc2]
        have hdiv : (sessionEnd - dur - current) / step = 0 :=
          Nat.div_eq_of_lt (by omega)
        rw [hdiv, show List.range 1 = [0] from rfl]
        simp
    · simp [slotStartsGo, hc]

/-- Closed form of the slot-generation loop (`0 < step`): offsets are
`current + i * step` while the offset plus the duration fits, so consecutive
generated offsets within a session differ by exactly `step`. -/
theorem slotStarts_closed (dur step sessionEnd current : Nat) (hs : 0 < step) :
    slotStarts dur step sessionEnd current =
      (List.range (if current + dur ≤ sessionEnd then
        (sessionEnd - dur - current) / step + 1 else 0)).map
        (fun i => current + i * step) :=
  slotStartsGo_closed dur step sessionEnd hs _ current (Nat.le_refl _)

/-- A confirmed appointment on the queried date contributes its interval to
`_get_booked_slots`. -/
theorem mem_getBookedSlots {ledger : Ledger} {d : Date} {a : Appointment}
    (ha : a ∈ ledger) (hs : a.status = "confirmed") (hd : a.date = d) :
    (a.startTime, a.stopTime) ∈ getBookedSlots ledger d := by
  unfold getBookedSlots
  refine List.mem_map.mpr ⟨a, List.mem_filter.mpr ⟨ha, ?_⟩, rfl⟩
  simp [hd, hs]

/-- `_is_slot_available` in logical form: the candidate interval is disjoint
(in the `end ≤ start` sense) from every confirmed interval on the date. -/
theorem isSlotAvailable_iff (ledger : Ledger) (d : Date) (s e : Nat) :
    isSlotAvailable ledger d s e = true ↔
      ∀ a ∈ ledger, a.status = "confirmed" → a.date = d →
        e ≤ a.startTime ∨ a.stopTime ≤ s := by
  unfold isSlotAvailable
  rw [List.all_eq_true]
  constructor
  · intro h a ha hst hd
    simpa using h (a.startTime, a.stopTime) (mem_getBookedSlots ha hst hd)
  · intro h p hp
    unfold getBookedSlots at hp
    simp only [List.mem_map, List.mem_filter, Bool.and_eq_true, beq_iff_eq] at hp
    obtain ⟨a, ⟨ha, hd, hst⟩, rfl⟩ := hp
    simpa using h a ha hst hd

/-- `_is_slot_available` decides exactly the spec's half-open overlap test:
it succeeds iff no confirmed appointment on the date satisfies
`A.start < B.end AND B.start < A.end` against the candidate. -/
theorem isSlotAvailable_iff_not_overlaps (ledger : Ledger) (d : Date)
    (s e : Nat) :
    isSlotAvailable ledger d s e = true ↔ ¬ overlapsConfirmed ledger d s e := by
  rw [isSlotAvailable_iff]
  unfold overlapsConfirmed
  constructor
  · rintro h ⟨a, ha, hst, hd, h1, h2⟩
    have := h a ha hst hd
    omega
  · intro h a ha hst hd
    by_contra hc
    push_neg at hc
    exact h ⟨a, ha, hst, hd, by omega⟩

/-- The session-containment check of `book_appointment` decides
`withinSomeSession`. -/
theorem any_session_iff (sched : Schedule) (d : Date) (s e : Nat) :
    ((getWorkingSessions sched d).any (fun sess =>
      sess.start ≤ s && e ≤ sess.stop)) = true ↔
      withinSomeSession sched d s e := by
  unfold withinSomeSession
  simp [List.any_eq_true]

/-- A generated slot is some offset `c` paired with `c + duration` and the
availability flag computed against the ledger. -/
theorem mem_generateSlots {sched : Schedule} {ledger : Ledger} {d : Date}
    {t : AppointmentType} {slot : TimeSlot}
    (h : slot ∈ generateSlots sched ledger d t) :
    ∃ c, slot = ⟨c, c + sched.durationMinutes t,
      isSlotAvailable ledger d c (c + sched.durationMinutes t)⟩ := by
  unfold generateSlots at h
  simp only [List.mem_flatMap, List.mem_map] at h
  obtain ⟨sess, _, c, _, rfl⟩ := h
  exact ⟨c, rfl⟩

/-- `_is_working_day` returns false exactly on holidays, blocked dates and
weekdays without sessions. -/
theorem isWorkingDay_false_iff (sched : Schedule) (d : Date) :
    isWorkingDay sched d = false ↔
      d ∈ sched.holidays ∨ d ∈ sched.blockedDates ∨
      sched.workingHours (dayOfWeek d) = [] := by
  unfold isWorkingDay
  simp [List.isEmpty_iff, Decidable.or_iff_not_imp_left]

/-- On a working day with positive duration, the generated slots are the
per-session arithmetic progressions of the closed form. -/
theorem generateSlots_closed (sched : Schedule) (ledger : Ledger) (d : Date)
    (t : AppointmentType) (hw : isWorkingDay sched d = true)
    (hdur : 0 < sched.durationMinutes t) :
    generateSlots sched ledger d t =
      (sched.workingHours (dayOfWeek d)).flatMap (fun sess =>
        (List.range (if sess.start + sched.durationMinutes t ≤ sess.stop then
            (sess.stop - sched.durationMinutes t - sess.start) /
              (sched.durationMinutes t + sched.bufferMinutes) + 1
          else 0)).map (fun i =>
          ⟨sess.start + i * (sched.durationMinutes t + sched.bufferMinutes),
            sess.start + i * (sched.durationMinutes t + sched.bufferMinutes) +
              sched.durationMinutes t,
            isSlotAvailable ledger d
              (sess.start + i * (sched.durationMinutes t + sched.bufferMinutes))
              (sess.start + i * (sched.durationMinutes t + sched.bufferMinutes) +
                sched.durationMinutes t)⟩)) := by
  unfold generateSlots getWorkingSessions
  rw [if_pos hw]
  congr 1
  funext sess
  rw [slotStarts_closed _ _ _ _ (by omega), List.map_map]
  rfl

/-- C2. Slot generation: on a valid, non-past, working-day date with a known
appointment type, `get_availability` returns, session by session in order,
the candidate slots starting at the session start and stepping by
`duration + buffer` while the offset plus the duration fits in the session;
every slot spans exactly the duration, and a slot is available iff its
half-open interval intersects no confirmed appointment on the date under the
test `A.start < B.end AND B.start < A.end`. A Monday session 09:00–13:00 with
duration 30 and buffer 10 starts 09:00–09:30, 09:40–10:10, 10:20–10:50. -/
theorem slot_generation_spec (sched : Schedule) (today : Date)
    (ledger : Ledger) (d : Date) (t : AppointmentType)
    (hv : validDate d = true) (hp : dateLt d today = false)
    (hw : isWorkingDay sched d = true)
    (hdur : 0 < sched.durationMinutes t) :
    getAvailability sched today ledger d t =
      .ok ⟨d, dayOfWeek d, generateSlots sched ledger d t,
        (generateSlots sched ledger d t).length,
        (generateSlots sched ledger d t).countP (fun s => s.available)⟩ ∧
    generateSlots sched ledger d t =
      (sched.workingHours (dayOfWeek d)).flatMap (fun sess =>
        (List.range (if sess.start + sched.durationMinutes t ≤ sess.stop then
            (sess.stop - sched.durationMinutes t - sess.start) /
              (sched.durationMinutes t + sched.bufferMinutes) + 1
          else 0)).map (fun i =>
          ⟨sess.start + i * (sched.durationMinutes t + sched.bufferMinutes),
            sess.start + i * (sched.durationMinutes t + sched.bufferMinutes) +
              sched.durationMinutes t,
            isSlotAvailable ledger d
              (sess.start + i * (sched.durationMinutes t + sched.bufferMinutes))
              (sess.start + i * (sched.durationMinutes t + sched.bufferMinutes) +
                sched.durationMinutes t)⟩)) ∧
    (∀ slot ∈ generateSlots sched ledger d t,
      slot.stopTime = slot.startTime + sched.durationMinutes t ∧
      (slot.available = true ↔
        ∀ a ∈ ledger, a.status = "confirmed" → a.date = d →
          ¬(a.startTime < slot.stopTime ∧ slot.startTime < a.stopTime))) ∧
    (generateSlots exampleSchedule [] exampleMonday .consultation).take 3 =
      [⟨540, 570, true⟩, ⟨580, 610, true⟩, ⟨620, 650, true⟩] := by
  refine ⟨?_, generateSlots_closed sched ledger d t hw hdur, ?_, by decide⟩
  · simp [getAvailability, hv, hp, hw]
  · intro slot hmem
    obtain ⟨c, rfl⟩ := mem_generateSlots hmem
    dsimp only
    refine ⟨rfl, ?_⟩
    rw [isSlotAvailable_iff]
    constructor
    · intro h a ha h1 h2
      have := h a ha h1 h2
      omega
    · intro h a ha h1 h2
      have := h a ha h1 h2
      omega

/-- Witness for C2 at the concrete Monday example. -/
theorem slot_generation_spec_witness :
    getAvailability exampleSchedule exampleMonday [] exampleMonday
      .consultation ≠ .error .invalidDate := by
  have h := slot_generation_spec exampleSchedule exampleMonday []
    exampleMonday .consultation (by decide) (by decide) (by decide) (by decide)
  rw [h.1]
  simp

/-- C4. `get_availability` raises `InvalidDate` exactly on ill-formed
calendar dates; every well-formed date that is past, a holiday, blocked, or
on a weekday without sessions yields the empty response (no error,
`total_slots = 0`, `available_count = 0`). -/
theorem availability_error_vs_empty (sched : Schedule) (today : Date)
    (ledger : Ledger) (d : Date) (t : AppointmentType) :
    (getAvailability sched today ledger d t = .error .invalidDate ↔
      validDate d = false) ∧
    (validDate d = true →
      dateLt d today = true ∨ d ∈ sched.holidays ∨ d ∈ sched.blockedDates ∨
        sched.workingHours (dayOfWeek d) = [] →
      getAvailability sched today ledger d t =
        .ok ⟨d, dayOfWeek d, [], 0, 0⟩) := by
  constructor
  · constructor
    · intro h
      by_contra hv
      rw [Bool.not_eq_false] at hv
      unfold getAvailability at h
      rw [if_pos hv] at h
      split_ifs at h
    · intro hv
      unfold getAvailability
      rw [if_neg (by simp [hv])]
  · intro hv hcase
    unfold getAvailability
    rw [if_pos hv]
    by_cases hp : dateLt d today
    · rw [if_pos hp]
    · have hw : isWorkingDay sched d = false := by
        rcases hcase with h | h
        · exact absurd h hp
        · exact (isWorkingDay_false_iff sched d).mpr h
      simp [hp, hw]

/-- Witness for C4: Sunday 2026-10-11 has no sessions in the example
schedule, so availability is the empty response rather than an error. -/
theorem availability_empty_witness :
    getAvailability exampleSchedule exampleMonday [] ⟨2026, 10, 11⟩
      .consultation = .ok ⟨⟨2026, 10, 11⟩, dayOfWeek ⟨2026, 10, 11⟩, [], 0, 0⟩ :=
  (availability_error_vs_empty exampleSchedule exampleMonday []
    ⟨2026, 10, 11⟩ .consultation).2 (by decide)
    (Or.inr (Or.inr (Or.inr (by decide))))

/-- Eliminating a successful `book_appointment`: every validation check
passed, and the result is exactly the confirmed record appended to the
ledger. -/
theorem bookAppointment_ok {sched : Schedule} {today : Date}
    {ledger : Ledger} {req : BookingRequest} {rng : Rng} {now : Nat}
    {a : Appointment} {L' : Ledger}
    (h : bookAppointment sched today ledger req rng now = .ok (a, L')) :
    dateLt req.date today = false ∧
    isWorkingDay sched req.date = true ∧
    isSlotAvailable ledger req.date req.startTime
      (req.startTime + sched.durationMinutes req.appointmentType) = true ∧
    ((getWorkingSessions sched req.date).any (fun sess =>
      sess.start ≤ req.startTime &&
      req.startTime + sched.durationMinutes req.appointmentType ≤ sess.stop))
      = true ∧
    a = { bookingId := generateBookingId today rng.idDigits
          confirmationCode := generateConfirmationCode rng.codeDraws
          status := "confirmed"
          appointmentType := req.appointmentType
          date := req.date
          startTime := req.startTime
          stopTime := req.startTime + sched.durationMinutes req.appointmentType
          patientName := req.patientName
          patientEmail := req.patientEmail
          patientPhone := req.patientPhone
          reason := req.reason
          createdAt := now } ∧
    L' = ledger ++ [a] := by
  simp only [bookAppointment] at h
  split_ifs at h with h1 h2 h3 h4
  rw [Except.ok.injEq, Prod.mk.injEq] at h
  obtain ⟨ha, hl⟩ := h
  simp only [Bool.not_eq_true] at h1
  rw [Bool.not_eq_true, Bool.not_eq_false'] at h2 h3 h4
  exact ⟨h1, h2, h3, h4, ha.symm, by rw [← hl, ← ha]⟩

/-- A successful booking preserves the no-overlap invariant: the appended
record passed `_is_slot_available` against every confirmed appointment of its
date. -/
theorem book_preserves_noConfirmedOverlap {sched : Schedule} {today : Date}
    {ledger : Ledger} {req : BookingRequest} {rng : Rng} {now : Nat}
    {a : Appointment} {L' : Ledger}
    (hinv : noConfirmedOverlap ledger)
    (h : bookAppointment sched today ledger req rng now = .ok (a, L')) :
    noConfirmedOverlap L' := by
  obtain ⟨-, -, havail, -, ha, hl⟩ := bookAppointment_ok h
  subst hl
  unfold noConfirmedOverlap at hinv ⊢
  rw [List.pairwise_append]
  refine ⟨hinv, by simp, ?_⟩
  intro x hx y hy
  simp only [List.mem_singleton] at hy
  subst hy
  intro hxc hyc hdate
  rw [isSlotAvailable_iff] at havail
  have hdx : x.date = req.date := by rw [hdate, ha]
  have hsep := havail x hx hxc hdx
  rintro ⟨p, ⟨hp1, hp2⟩, hp3, hp4⟩
  rw [ha] at hp3 hp4
  simp only at hp3 hp4
  omega

/-- Every record of a post-cancellation ledger descends from a record of the
original ledger with the same date and interval, and is confirmed only if the
original was. -/
theorem mem_cancelBooking {now : Nat} {L : Ledger} {id : String}
    {b : Appointment} (hb : b ∈ (cancelBooking now L id).2) :
    ∃ b0 ∈ L, b.date = b0.date ∧ b.startTime = b0.startTime ∧
      b.stopTime = b0.stopTime ∧
      (b.status = "confirmed" → b0.status = "confirmed") := by
  induction L with
  | nil => simp [cancelBooking] at hb
  | cons x rest ih =>
    by_cases hid : x.bookingId == id
    · simp only [cancelBooking, if_pos hid] at hb
      rcases List.mem_cons.mp hb with rfl | hmem
      · exact ⟨x, List.mem_cons_self x rest, rfl, rfl, rfl,
          fun hc => absurd hc (by simp)⟩
      · exact ⟨b, List.mem_cons_of_mem x hmem, rfl, rfl, rfl, fun hc => hc⟩
    · simp only [cancelBooking, if_neg hid] at hb
      rcases List.mem_cons.mp hb with rfl | hmem
      · exact ⟨b, List.mem_cons_self b rest, rfl, rfl, rfl, fun hc => hc⟩
      · obtain ⟨b0, hb0, hrest⟩ := ih hmem
        exact ⟨b0, List.mem_cons_of_mem x hb0, hrest⟩

/-- Cancellation preserves the no-overlap invariant: it only moves a record
out of the confirmed set, never changes an interval. -/
theorem cancel_preserves_noConfirmedOverlap {now : Nat} {L : Ledger}
    {id : String} (hinv : noConfirmedOverlap L) :
    noConfirmedOverlap (cancelBooking now L id).2 := by
  induction L with
  | nil => simpa [cancelBooking] using hinv
  | cons x rest ih =>
    obtain ⟨h1, h2⟩ := List.pairwise_cons.mp hinv
    by_cases hid : x.bookingId == id
    · unfold noConfirmedOverlap
      simp only [cancelBooking, if_pos hid]
      rw [List.pairwise_cons]
      refine ⟨?_, h2⟩
      intro b _ hconf
      exact absurd hconf (by simp)
    · unfold noConfirmedOverlap
      simp only [cancelBooking, if_neg hid]
      rw [List.pairwise_cons]
      refine ⟨?_, ih h2⟩
      intro b hb haC hbC hdd
      obtain ⟨b0, hb0, hd, hst, hsp, hcf⟩ := mem_cancelBooking hb
      have hres := h1 b0 hb0 haC (hcf hbC) (hdd.trans hd)
      rw [intervalsIntersect] at hres ⊢
      rw [hst, hsp]
      exact hres

/-- C1. Ledger no-overlap invariant: from any state satisfying it, any
sequence of successful `book_appointment` and `cancel_booking` operations
preserves it — no two confirmed appointments on the same date ever have
intersecting half-open `[start_time, end_time)` intervals. -/
theorem ledger_no_overlap_invariant (sched : Schedule) (L L' : Ledger)
    (hinv : noConfirmedOverlap L) (hreach : Reachable sched L L') :
    noConfirmedOverlap L' := by
  induction hreach with
  | refl => exact hinv
  | book today req rng now _ hok ih =>
    exact book_preserves_noConfirmedOverlap ih hok
  | cancel now id _ ih =>
    exact cancel_preserves_noConfirmedOverlap ih

/-- Witness for C1: booking on an empty ledger yields an invariant-satisfying
ledger. -/
theorem ledger_no_overlap_invariant_witness :
    noConfirmedOverlap [bookedAppointment] :=
  ledger_no_overlap_invariant exampleSchedule [] [bookedAppointment]
    (by simp [noConfirmedOverlap])
    (Reachable.book exampleMonday exampleRequest exampleRng 5
      (Reachable.refl []) (by rfl))

/-- C3. Booking validation is fail-fast in source order: past date, closed
day, occupied slot, outside working hours; each error is returned exactly
when its check is the first to fail, so a request that both overlaps a
confirmed appointment and lies outside every session fails with the
slot-unavailable error, not the outside-hours one. -/
theorem booking_validation_order (sched : Schedule) (today : Date)
    (ledger : Ledger) (req : BookingRequest) (rng : Rng) (now : Nat) :
    (bookAppointment sched today ledger req rng now = .error .pastDate ↔
      dateLt req.date today = true) ∧
    (bookAppointment sched today ledger req rng now = .error .closedDay ↔
      dateLt req.date today = false ∧ isWorkingDay sched req.date = false) ∧
    (bookAppointment sched today ledger req rng now = .error .slotUnavailable ↔
      dateLt req.date today = false ∧ isWorkingDay sched req.date = true ∧
      overlapsConfirmed ledger req.date req.startTime
        (req.startTime + sched.durationMinutes req.appointmentType)) ∧
    (bookAppointment sched today ledger req rng now = .error .outsideHours ↔
      dateLt req.date today = false ∧ isWorkingDay sched req.date = true ∧
      ¬ overlapsConfirmed ledger req.date req.startTime
        (req.startTime + sched.durationMinutes req.appointmentType) ∧
      ¬ withinSomeSession sched req.date req.startTime
        (req.startTime + sched.durationMinutes req.appointmentType)) ∧
    (dateLt req.date today = false → isWorkingDay sched req.date = true →
      overlapsConfirmed ledger req.date req.startTime
        (req.startTime + sched.durationMinutes req.appointmentType) →
      ¬ withinSomeSession sched req.date req.startTime
        (req.startTime + sched.durationMinutes req.appointmentType) →
      bookAppointment sched today ledger req rng now =
        .error .slotUnavailable) := by
  have havail := isSlotAvailable_iff_not_overlaps ledger req.date
    req.startTime (req.startTime + sched.durationMinutes req.appointmentType)
  have hsess := any_session_iff sched req.date req.startTime
    (req.startTime + sched.durationMinutes req.appointmentType)
  by_cases h1 : dateLt req.date today
  · simp [bookAppointment, h1]
  · by_cases h2 : isWorkingDay sched req.date
    · by_cases h3 : isSlotAvailable ledger req.date req.startTime
        (req.startTime + sched.durationMinutes req.appointmentType)
      · by_cases h4 : (getWorkingSessions sched req.date).any (fun sess =>
          sess.start ≤ req.startTime &&
          req.startTime + sched.durationMinutes req.appointmentType ≤ sess.stop)
        · simp [bookAppointment, h1, h2, h3, h4, havail.mp h3, hsess.mp h4]
        · have hover : ¬ overlapsConfirmed ledger req.date req.startTime
              (req.startTime + sched.durationMinutes req.appointmentType) :=
            havail.mp h3
          have hin : ¬ withinSomeSession sched req.date req.startTime
              (req.startTime + sched.durationMinutes req.appointmentType) :=
            fun hc => h4 (hsess.mpr hc)
          simp [bookAppointment, h1, h2, h3, h4, hover, hin]
      · have hover : overlapsConfirmed ledger req.date req.startTime
            (req.startTime + sched.durationMinutes req.appointmentType) := by
          by_contra hc
          exact h3 (havail.mpr hc)
        simp [bookAppointment, h1, h2, h3, hover]
    · simp [bookAppointment, h1, h2]

/-- Witness for C3: a request that both overlaps a confirmed appointment and
sticks out of the session fails with the slot-unavailable error. -/
theorem booking_validation_order_witness :
    bookAppointment exampleSchedule exampleMonday [overhangAppointment]
      overhangRequest exampleRng 9 = .error .slotUnavailable := by
  refine (booking_validation_order exampleSchedule exampleMonday
    [overhangAppointment] overhangRequest exampleRng 9).2.2.2.2
    (by decide) (by decide) ⟨overhangAppointment, by decide⟩ ?_
  rintro ⟨sess, hmem, -, hs2⟩
  have he : getWorkingSessions exampleSchedule overhangRequest.date =
      [⟨540, 780⟩] := by decide
  rw [he] at hmem
  rw [List.mem_singleton.mp hmem] at hs2
  exact absurd hs2 (by decide)

/-- Decimal digit characters really are digits. -/
theorem digitChar_isDigit (n : Nat) : (digitChar n).isDigit = true := by
  have h : n % 10 < 10 := Nat.mod_lt _ (by decide)
  have haux : ∀ k, k < 10 → (Char.ofNat (48 + k)).isDigit = true := by decide
  exact haux _ h

/-- The `%Y%m%d` stamp is eight characters long. -/
theorem dateStamp_length (d : Date) : (dateStamp d).length = 8 := rfl

/-- Every character of the `%Y%m%d` stamp is a decimal digit. -/
theorem dateStamp_isDigit (d : Date) :
    ∀ c ∈ (dateStamp d).data, c.isDigit = true := by
  intro c hc
  rw [show (dateStamp d).data = [digitChar (d.year / 1000),
    digitChar (d.year / 100), digitChar (d.year / 10), digitChar d.year,
    digitChar (d.month / 10), digitChar d.month,
    digitChar (d.day / 10), digitChar d.day] from rfl] at hc
  fin_cases hc <;> exact digitChar_isDigit _

/-- The confirmation-code alphabet holds only uppercase letters and digits. -/
theorem codeAlphabet_upper_or_digit :
    ∀ c ∈ codeAlphabet, c.isUpper = true ∨ c.isDigit = true := by decide

/-- A generated confirmation code has one character per draw, each drawn from
the uppercase+digits alphabet. -/
theorem generateConfirmationCode_spec (draws : List (Fin 36)) :
    (generateConfirmationCode draws).length = draws.length ∧
    ∀ c ∈ (generateConfirmationCode draws).data,
      c.isUpper = true ∨ c.isDigit = true := by
  constructor
  · show (draws.map fun i => codeAlphabet.getD i.val 'A').length = draws.length
    exact List.length_map _ _
  · intro c hc
    have hm : c ∈ draws.map (fun i => codeAlphabet.getD i.val 'A') := hc
    obtain ⟨i, -, rfl⟩ := List.mem_map.mp hm
    apply codeAlphabet_upper_or_digit
    have hi : (i : Nat) < codeAlphabet.length := by
      rw [show codeAlphabet.length = 36 from rfl]
      exact i.isLt
    rw [List.getD_eq_getElem _ _ hi]
    exact List.getElem_mem hi

/-- Appending a record whose id is fresh makes it the lookup result for that
id. -/
theorem getBookingById_append_fresh {L : Ledger} {a : Appointment}
    (hfresh : ∀ b ∈ L, b.bookingId ≠ a.bookingId) :
    getBookingById (L ++ [a]) a.bookingId = some a := by
  induction L with
  | nil => simp [getBookingById]
  | cons x rest ih =>
    have hx : (x.bookingId == a.bookingId) = false :=
      beq_eq_false_iff_ne.mpr (hfresh x (List.mem_cons_self x rest))
    simp only [List.cons_append, getBookingById, hx, Bool.false_eq_true,
      if_false]
    exact ih (fun b hb => hfresh b (List.mem_cons_of_mem x hb))

/-- C5 (amended). Successful booking postcondition: the booking id has the
shape `APPT-<8 digits>-<4 digits>`, the confirmation code is 6 characters of
uppercase letters and digits, the stored record is confirmed with
`end_time = start_time + duration`, and the record is appended to the
persisted ledger — all unconditionally; and, provided no record already in
the ledger carries the same booking id, looking the id up returns a
confirmed record. -/
theorem booking_success_postcondition (sched : Schedule) (today : Date)
    (ledger : Ledger) (req : BookingRequest) (rng : Rng) (now : Nat)
    (a : Appointment) (L' : Ledger)
    (hok : bookAppointment sched today ledger req rng now = .ok (a, L'))
    (hd4 : rng.idDigits.length = 4) (hd6 : rng.codeDraws.length = 6) :
    (∃ ds gs : String, a.bookingId = "APPT-" ++ ds ++ "-" ++ gs ∧
      ds.length = 8 ∧ (∀ c ∈ ds.data, c.isDigit = true) ∧
      gs.length = 4 ∧ (∀ c ∈ gs.data, c.isDigit = true)) ∧
    a.confirmationCode.length = 6 ∧
    (∀ c ∈ a.confirmationCode.data, c.isUpper = true ∨ c.isDigit = true) ∧
    a.status = "confirmed" ∧
    a.startTime = req.startTime ∧
    a.stopTime = a.startTime + sched.durationMinutes req.appointmentType ∧
    L' = ledger ++ [a] ∧
    ((∀ b ∈ ledger, b.bookingId ≠ a.bookingId) →
      (getBookingById L' a.bookingId).map (fun r => r.status) =
        some "confirmed") := by
  obtain ⟨-, -, -, -, ha, hl⟩ := bookAppointment_ok hok
  subst ha
  subst hl
  refine ⟨⟨dateStamp today,
    String.mk (rng.idDigits.map (fun (i : Fin 10) => digitChar i.val)), rfl,
    dateStamp_length today, dateStamp_isDigit today, ?_, ?_⟩,
    ?_, (generateConfirmationCode_spec rng.codeDraws).2, rfl, rfl, rfl, rfl,
    ?_⟩
  · show (rng.idDigits.map fun (i : Fin 10) => digitChar i.val).length = 4
    rw [List.length_map, hd4]
  · intro c hc
    have hm : c ∈ rng.idDigits.map (fun (i : Fin 10) => digitChar i.val) := hc
    obtain ⟨i, -, rfl⟩ := List.mem_map.mp hm
    exact digitChar_isDigit _
  · rw [(generateConfirmationCode_spec rng.codeDraws).1, hd6]
  · intro hfresh
    rw [getBookingById_append_fresh hfresh]
    rfl

/-- Counterexample to C5 as stated: when the generated booking id collides
with an id already in the ledger, the post-booking lookup returns the older
(here cancelled) record, not the confirmed one. -/
theorem booking_lookup_counterexample :
    bookAppointment exampleSchedule exampleMonday [staleAppointment]
      exampleRequest exampleRng 5 =
      .ok (bookedAppointment, [staleAppointment, bookedAppointment]) ∧
    (getBookingById [staleAppointment, bookedAppointment]
      bookedAppointment.bookingId).map (fun r => r.status) =
      some "cancelled" :=
  ⟨rfl, rfl⟩

/-- Witness for C5 on an empty ledger. -/
theorem booking_success_postcondition_witness :
    (getBookingById [bookedAppointment] bookedAppointment.bookingId).map
      (fun r => r.status) = some "confirmed" :=
  (booking_success_postcondition exampleSchedule exampleMonday []
    exampleRequest exampleRng 5 bookedAppointment [bookedAppointment]
    (by rfl) (by rfl) (by rfl)).2.2.2.2.2.2.2 (by simp)

/-- `cancel_booking` on a ledger without the id: returns false and leaves the
ledger unchanged. -/
theorem cancelBooking_not_found (now : Nat) (id : String) :
    ∀ L : Ledger, (∀ b ∈ L, b.bookingId ≠ id) →
      cancelBooking now L id = (false, L) := by
  intro L
  induction L with
  | nil => intro _; rfl
  | cons x rest ih =>
    intro h
    have hx : (x.bookingId == id) = false :=
      beq_eq_false_iff_ne.mpr (h x (List.mem_cons_self x rest))
    simp only [cancelBooking, hx, Bool.false_eq_true, if_false]
    rw [ih (fun b hb => h b (List.mem_cons_of_mem x hb))]

/-- `cancel_booking` flips exactly the first record carrying the id. -/
theorem cancelBooking_first_match (now : Nat) (id : String) :
    ∀ (pre : Ledger) (a : Appointment) (post : Ledger),
      (∀ b ∈ pre, b.bookingId ≠ id) → a.bookingId = id →
      cancelBooking now (pre ++ a :: post) id =
        (true, pre ++ { a with
          status := "cancelled", cancelledAt := some now } :: post) := by
  intro pre
  induction pre with
  | nil =>
    intro a post _ ha
    have hx : (a.bookingId == id) = true := beq_iff_eq.mpr ha
    simp [cancelBooking, hx]
  | cons x rest ih =>
    intro a post h ha
    have hx : (x.bookingId == id) = false :=
      beq_eq_false_iff_ne.mpr (h x (List.mem_cons_self x rest))
    simp only [List.cons_append, cancelBooking, hx, Bool.false_eq_true,
      if_false, List.append_eq]
    rw [ih a post (fun b hb => h b (List.mem_cons_of_mem x hb)) ha]

/-- `cancel_booking` reports success exactly when some record carries the
id. -/
theorem cancelBooking_found_iff (now : Nat) (id : String) :
    ∀ L : Ledger, (cancelBooking now L id).1 = true ↔
      ∃ a ∈ L, a.bookingId = id := by
  intro L
  induction L with
  | nil => simp [cancelBooking]
  | cons x rest ih =>
    by_cases hx : (x.bookingId == id) = true
    · simp only [cancelBooking, hx, if_true]
      refine iff_of_true ?_ ⟨x, List.mem_cons_self x rest, beq_iff_eq.mp hx⟩
      trivial
    · have hx' : (x.bookingId == id) = false := by
        simpa using hx
      simp only [cancelBooking, hx', Bool.false_eq_true, if_false]
      rw [ih]
      constructor
      · rintro ⟨a, ha, h⟩
        exact ⟨a, List.mem_cons_of_mem x ha, h⟩
      · rintro ⟨a, ha, h⟩
        rcases List.mem_cons.mp ha with rfl | hmem
        · exact absurd (beq_iff_eq.mpr h) (by simp [hx'])
        · exact ⟨a, hmem, h⟩

/-- C7. Cancellation contract: `cancel_booking` returns true exactly when a
record with the id exists; it then flips the first such record to cancelled
and stamps `cancelled_at`; with no matching record it returns false without
error and leaves the ledger unchanged. -/
theorem cancellation_contract (now : Nat) (L : Ledger) (id : String) :
    ((cancelBooking now L id).1 = true ↔ ∃ a ∈ L, a.bookingId = id) ∧
    ((∀ a ∈ L, a.bookingId ≠ id) → cancelBooking now L id = (false, L)) ∧
    (∀ pre a post, L = pre ++ a :: post → (∀ b ∈ pre, b.bookingId ≠ id) →
      a.bookingId = id →
      cancelBooking now L id =
        (true, pre ++ { a with
          status := "cancelled", cancelledAt := some now } :: post)) :=
  ⟨cancelBooking_found_iff now id L, cancelBooking_not_found now id L,
    fun pre a post hL hpre ha => by
      rw [hL]
      exact cancelBooking_first_match now id pre a post hpre ha⟩

/-- Witness for C7: cancelling the only booking flips it and returns true. -/
theorem cancellation_contract_witness :
    cancelBooking 7 [bookedAppointment] "APPT-20261012-1234" =
      (true, [{ bookedAppointment with
        status := "cancelled", cancelledAt := some 7 }]) :=
  (cancellation_contract 7 [bookedAppointment] "APPT-20261012-1234").2.2
    [] bookedAppointment [] rfl (by simp) rfl

/-- Appending a non-confirmed record does not change the booked intervals of
any date. -/
theorem getBookedSlots_append_nonconfirmed (L : Ledger) (x : Appointment)
    (d : Date) (h : x.status ≠ "confirmed") :
    getBookedSlots (L ++ [x]) d = getBookedSlots L d := by
  unfold getBookedSlots
  rw [List.filter_append]
  have hx : List.filter (fun a => a.date == d && a.status == "confirmed")
      [x] = [] := by
    simp [h]
  rw [hx, List.append_nil]

/-- Appending a non-confirmed record does not change any availability
verdict. -/
theorem isSlotAvailable_append_nonconfirmed (L : Ledger) (x : Appointment)
    (d : Date) (s e : Nat) (h : x.status ≠ "confirmed") :
    isSlotAvailable (L ++ [x]) d s e = isSlotAvailable L d s e := by
  unfold isSlotAvailable
  rw [getBookedSlots_append_nonconfirmed L x d h]

/-- C6 (amended). Book/cancel availability round-trip: after a successful
booking, re-querying availability for the same date and type
unconditionally marks the booked slot unavailable; and — provided the
generated booking id did not already occur in the ledger (the cancellation
flips the first matching record) — cancelling that booking id succeeds and
re-querying restores the slot to available. -/
theorem book_cancel_availability_roundtrip (sched : Schedule) (today : Date)
    (L : Ledger) (req : BookingRequest) (rng : Rng) (now t2 : Nat)
    (a : Appointment) (L' : Ledger)
    (hok : bookAppointment sched today L req rng now = .ok (a, L'))
    (hv : validDate req.date = true)
    (hdur : 0 < sched.durationMinutes req.appointmentType) :
    getAvailability sched today L' req.date req.appointmentType =
      .ok ⟨req.date, dayOfWeek req.date,
        generateSlots sched L' req.date req.appointmentType,
        (generateSlots sched L' req.date req.appointmentType).length,
        (generateSlots sched L' req.date req.appointmentType).countP
          (fun s => s.available)⟩ ∧
    (∀ slot ∈ generateSlots sched L' req.date req.appointmentType,
      slot.startTime = req.startTime → slot.available = false) ∧
    ((∀ b ∈ L, b.bookingId ≠ a.bookingId) →
      (cancelBooking t2 L' a.bookingId).1 = true ∧
      (∀ slot ∈ generateSlots sched (cancelBooking t2 L' a.bookingId).2
          req.date req.appointmentType,
        slot.startTime = req.startTime → slot.available = true)) := by
  obtain ⟨hp, hw, havail, -, ha, hl⟩ := bookAppointment_ok hok
  subst hl
  have hstat : a.status = "confirmed" := by rw [ha]
  have hdate : a.date = req.date := by rw [ha]
  have hst : a.startTime = req.startTime := by rw [ha]
  have hsp : a.stopTime =
      req.startTime + sched.durationMinutes req.appointmentType := by rw [ha]
  refine ⟨by simp [getAvailability, hv, hp, hw], ?_, ?_⟩
  · intro slot hmem hstart
    obtain ⟨c, rfl⟩ := mem_generateSlots hmem
    dsimp only at hstart ⊢
    subst hstart
    by_contra hres
    rw [Bool.not_eq_false, isSlotAvailable_iff] at hres
    have hsep := hres a (List.mem_append_right L (List.mem_singleton_self a))
      hstat hdate
    rw [hst, hsp] at hsep
    omega
  · intro hfresh
    have hcancel := cancelBooking_first_match t2 a.bookingId L a [] hfresh rfl
    refine ⟨by rw [hcancel], ?_⟩
    intro slot hmem hstart
    rw [hcancel] at hmem
    obtain ⟨c, rfl⟩ := mem_generateSlots hmem
    dsimp only at hstart ⊢
    subst hstart
    rw [isSlotAvailable_append_nonconfirmed _ _ _ _ _ (by simp)]
    exact havail

/-- Counterexample to C6 as stated: with a stale record sharing the generated
booking id, cancelling after booking flips the stale record, the fresh
confirmed booking survives, and re-queried availability still shows the slot
as unavailable. -/
theorem roundtrip_counterexample :
    bookAppointment exampleSchedule exampleMonday [staleAppointment]
      exampleRequest exampleRng 5 =
      .ok (bookedAppointment, [staleAppointment, bookedAppointment]) ∧
    (cancelBooking 7 [staleAppointment, bookedAppointment]
      bookedAppointment.bookingId).1 = true ∧
    (getAvailability exampleSchedule exampleMonday
        (cancelBooking 7 [staleAppointment, bookedAppointment]
          bookedAppointment.bookingId).2
        exampleMonday .consultation).toOption.map
      (fun r => r.availableSlots.filter (fun s => s.startTime == 580)) =
      some [⟨580, 610, false⟩] :=
  ⟨rfl, rfl, rfl⟩

/-- Witness for C6: after booking 09:40–10:10, that slot cannot appear as
available. -/
theorem roundtrip_witness :
    (⟨580, 610, true⟩ : TimeSlot) ∉
      generateSlots exampleSchedule [bookedAppointment] exampleMonday
        .consultation := by
  intro hmem
  have h := book_cancel_availability_roundtrip exampleSchedule exampleMonday
    [] exampleRequest exampleRng 5 7 bookedAppointment [bookedAppointment]
    (by rfl) (by decide) (by decide)
  have hfalse := h.2.1 ⟨580, 610, true⟩ hmem rfl
  simp at hfalse

/-- Counterexample to C8 as stated: when the first model call requests tools
and the second call fails, the turn returns the apology but the session keeps
the assistant placeholder message appended before tool execution — the
history is not left as it was. -/
theorem chat_failure_counterexample :
    (chat [] "hi" (.ok ⟨none, ["check_availability"]⟩)
      (.error "boom")).1.response = some apologyMessage ∧
    (chat [] "hi" (.ok ⟨none, ["check_availability"]⟩)
      (.error "boom")).2 ≠ [] := by
  exact ⟨rfl, by decide⟩

/-- C8 (amended). Whole-turn failure of chat: a failed first model call
returns the fixed apology (which contains the clinic phone number) and leaves
the session history untouched; a failed second call — only reachable on the
tool-call path — returns the same apology, and the only message of the turn
retained is the assistant tool-call placeholder (content-or-empty) appended
before tool execution; neither the user message nor any final reply is
stored. -/
theorem chat_failure_atomicity (hist : List Msg) (u e : String)
    (turn : AssistantTurn) (c2 : Except String String) :
    chat hist u (.error e) c2 =
      (⟨some apologyMessage, some e, none⟩, hist) ∧
    (turn.toolCalls ≠ [] →
      chat hist u (.ok turn) (.error e) =
        (⟨some apologyMessage, some e, none⟩,
          addToSession hist ⟨"assistant", some (turn.content.getD "")⟩)) ∧
    (∃ pre post : String, apologyMessage = pre ++ clinicPhone ++ post) := by
  refine ⟨rfl, ?_,
    ⟨"I apologize, but I'm having trouble processing your request right now. Please try again or call us at ",
      " for immediate assistance.", by rfl⟩⟩
  intro h
  have hno : turn.toolCalls.isEmpty = false := by
    cases htc : turn.toolCalls with
    | nil => exact absurd htc h
    | cons y ys => rfl
  simp [chat, hno]

/-- Witness for C8 on a concrete failing second call. -/
theorem chat_failure_atomicity_witness :
    chat [] "hi" (.ok ⟨none, ["search_faq"]⟩) (.error "down") =
      (⟨some apologyMessage, some "down", none⟩,
        [⟨"assistant", some ""⟩]) := by
  have h := chat_failure_atomicity [] "hi" "down" ⟨none, ["search_faq"]⟩
    (.ok "x")
  rw [h.2.1 (by decide)]
  rfl

/-- Both halves of a disjoint character test count separately. -/
theorem countP_or_disjoint (p q : Char → Bool)
    (hdisj : ∀ c, ¬(p c = true ∧ q c = true)) :
    ∀ l : List Char,
      l.countP (fun c => p c || q c) = l.countP p + l.countP q := by
  intro l
  induction l with
  | nil => simp
  | cons c cs ih =>
    rw [List.countP_cons, List.countP_cons, List.countP_cons, ih]
    cases hp : p c with
    | false =>
      cases hq : q c with
      | false => simp [hp, hq]
      | true => simp [hp, hq]; omega
    | true =>
      cases hq : q c with
      | false => simp [hp, hq]; omega
      | true => exact absurd ⟨hp, hq⟩ (hdisj c)

/-- Counterexample to C9 as stated: `+123456789` passes validation (the `'+'`
counts toward the 10-character minimum of the cleaning step), yet stripping
separators leaves only 9 digits — it does not reduce to at least 10
digits. -/
theorem phone_validation_counterexample :
    validatePhone "+123456789" = true ∧
    ¬((stripSeparators "+123456789").all Char.isDigit = true ∧
      10 ≤ (stripSeparators "+123456789").length) := by
  constructor
  · decide
  · decide

/-- C9 (amended). A phone string is accepted exactly when it matches the
field pattern `^\+?[\d\s\-()]+$` and the number of digits plus the number of
`'+'` characters is at least 10: the validator keeps digits and `'+'` and
requires 10 remaining characters, so a leading `'+'` counts toward the
minimum. -/
theorem phone_validation_amended (s : String) :
    validatePhone s = true ↔
      phonePatternOk s = true ∧
      10 ≤ s.data.countP (fun c => c.isDigit) +
        s.data.countP (fun c => c == '+') := by
  have hlen : (cleanPhone s).length =
      s.data.countP (fun c => c.isDigit) +
        s.data.countP (fun c => c == '+') := by
    unfold cleanPhone
    rw [← List.countP_eq_length_filter]
    exact countP_or_disjoint _ _
      (by
        rintro c ⟨h1, h2⟩
        rw [beq_iff_eq] at h2
        subst h2
        exact absurd h1 (by decide)) s.data
  unfold validatePhone
  rw [Bool.and_eq_true, decide_eq_true_eq, hlen]

/-- `datetime.date` comparison is irreflexive. -/
theorem dateLt_irrefl (d : Date) : dateLt d d = false := by
  simp [dateLt]

/-- C10. Calendar-day granularity of the past-date guards: both
`book_appointment` and `get_availability` compare only calendar dates
(`date < today`) — neither consumes a time of day (the embedding of the
source has no clock-time input because the code reads only `date.today()`).
Hence a booking for today is never rejected as past whatever its start
minute, it succeeds whenever the remaining checks pass, and availability for
today lists every generated slot with a flag depending only on the ledger. -/
theorem past_guard_calendar_granularity (sched : Schedule) (today : Date)
    (ledger : Ledger) (req : BookingRequest) (rng : Rng) (now : Nat)
    (t : AppointmentType) :
    (bookAppointment sched today ledger req rng now = .error .pastDate ↔
      dateLt req.date today = true) ∧
    (req.date = today →
      bookAppointment sched today ledger req rng now ≠ .error .pastDate) ∧
    (req.date = today →
      isWorkingDay sched req.date = true →
      ¬ overlapsConfirmed ledger req.date req.startTime
        (req.startTime + sched.durationMinutes req.appointmentType) →
      withinSomeSession sched req.date req.startTime
        (req.startTime + sched.durationMinutes req.appointmentType) →
      ∃ a L', bookAppointment sched today ledger req rng now = .ok (a, L')) ∧
    (validDate today = true → isWorkingDay sched today = true →
      getAvailability sched today ledger today t =
        .ok ⟨today, dayOfWeek today, generateSlots sched ledger today t,
          (generateSlots sched ledger today t).length,
          (generateSlots sched ledger today t).countP
            (fun s => s.available)⟩ ∧
      ∀ slot ∈ generateSlots sched ledger today t,
        slot.available =
          isSlotAvailable ledger today slot.startTime slot.stopTime) := by
  have hpastIff : bookAppointment sched today ledger req rng now =
      .error .pastDate ↔ dateLt req.date today = true := by
    by_cases h1 : dateLt req.date today
    · simp [bookAppointment, h1]
    · constructor
      · intro h
        exfalso
        simp only [bookAppointment, if_neg h1] at h
        split_ifs at h <;> simp at h
      · intro h
        exact absurd h h1
  refine ⟨hpastIff, ?_, ?_, ?_⟩
  · intro hd hcontra
    rw [hpastIff, hd, dateLt_irrefl] at hcontra
    cases hcontra
  · intro hd hw hnov hsess
    have h1 : dateLt req.date today = false := by
      rw [hd]
      exact dateLt_irrefl today
    have h3 : isSlotAvailable ledger req.date req.startTime
        (req.startTime + sched.durationMinutes req.appointmentType) = true :=
      (isSlotAvailable_iff_not_overlaps _ _ _ _).mpr hnov
    have h4 : ((getWorkingSessions sched req.date).any (fun sess =>
        sess.start ≤ req.startTime &&
        req.startTime + sched.durationMinutes req.appointmentType ≤ sess.stop))
        = true := (any_session_iff _ _ _ _).mpr hsess
    exact ⟨_, _, by
      simp only [bookAppointment, h1, hw, h3, h4]
      exact rfl⟩
  · intro hv hw
    refine ⟨by simp [getAvailability, hv, dateLt_irrefl, hw], ?_⟩
    intro slot hmem
    obtain ⟨c, rfl⟩ := mem_generateSlots hmem
    rfl

/-- Witness for C10: a booking for today at 09:40 (long past by any afternoon
wall clock) is not rejected as past. -/
theorem past_guard_calendar_granularity_witness :
    bookAppointment exampleSchedule exampleMonday [] exampleRequest
      exampleRng 5 ≠ .error .pastDate :=
  (past_guard_calendar_granularity exampleSchedule exampleMonday []
    exampleRequest exampleRng 5 .consultation).2.1 rfl

end RagChatbot
